import Mathlib

/-!
Shallow embedding of `src/queries.js`, a query runner over a document
database collection of Book documents.

The collection is modelled as a `List Book` in natural (insertion) order;
the driver operations the script invokes (`find().sort()`, `skip`/`limit`,
`updateOne` with a `$set` update, `deleteOne`, the `$group`/`$sort`/`$limit`
aggregation stages, index bookkeeping and `explain`) are modelled as pure
functions on that list, and each query function of the script is translated
on top of them.  Prices are modelled as rationals, years as naturals, and
the success / no-match console messages as the strings the script prints.
-/

namespace Bookstore

/-- A Book document: `title`, `author`, `genre` (text), `published_year`
(integer), `price` (decimal, modelled as a rational), `in_stock` (boolean). -/
structure Book where
  title : String
  author : String
  genre : String
  published_year : Nat
  price : ℚ
  in_stock : Bool
deriving DecidableEq

/-! ### Task 3c: `sortByPrice` (src/queries.js lines 114-120) -/

/-- `const sortOrder = order === "asc" ? 1 : -1;` -/
def sortOrderOf (order : String) : Int :=
  if order = "asc" then 1 else -1

/-- The comparison a Mongo sort `{ price: dir }` applies between two
documents: ascending on `price` for direction `1`, descending otherwise. -/
def priceLe (dir : Int) (a b : Book) : Bool :=
  if dir = 1 then decide (a.price ≤ b.price) else decide (b.price ≤ a.price)

/-- `books.find({}).sort({ price: sortOrder })`: all documents, stably
sorted by price in the direction derived from the order flag. -/
def sortByPrice (books : List Book) (order : String) : List Book :=
  books.mergeSort (priceLe (sortOrderOf order))

/-! ### Task 3d: `paginateBooks` (src/queries.js lines 123-133) -/

/-- `books.find({}).skip((page - 1) * pageSize).limit(pageSize)`. -/
def paginateBooks (books : List Book) (page pageSize : Nat) : List Book :=
  let skip := (page - 1) * pageSize
  (books.drop skip).take pageSize

/-! ### Task 2d: `updateBookPrice` (src/queries.js lines 76-82) -/

/-- Result document of a driver `updateOne` call. -/
structure UpdateOneResult where
  coll : List Book
  matchedCount : Nat
  modifiedCount : Nat
deriving DecidableEq

/-- `books.updateOne({ title }, { $set: { price: newPrice } })`: the first
document whose `title` equals the filter value gets its `price` set;
`modifiedCount` is 1 only if that write actually changed the stored value.
No match means no insert (`upsert` is not requested) and both counts are 0. -/
def updateOneSetPrice : List Book → String → ℚ → UpdateOneResult
  | [], _, _ => ⟨[], 0, 0⟩
  | b :: rest, t, p =>
    if b.title = t then
      ⟨{ b with price := p } :: rest, 1, if b.price = p then 0 else 1⟩
    else
      let r := updateOneSetPrice rest t p
      ⟨b :: r.coll, r.matchedCount, r.modifiedCount⟩

/-- `updateBookPrice`: performs the `updateOne` and prints `"Success"` when
`result.modifiedCount` is truthy (nonzero) and `"No match found"` otherwise. -/
def updateBookPrice (books : List Book) (title : String) (newPrice : ℚ) :
    List Book × String :=
  let result := updateOneSetPrice books title newPrice
  (result.coll, if result.modifiedCount ≠ 0 then "Success" else "No match found")

/-- First document in natural order whose `title` matches (the document an
`updateOne`/`deleteOne` filter `{ title }` selects). -/
def findFirstByTitle : List Book → String → Option Book
  | [], _ => none
  | b :: rest, t => if b.title = t then some b else findFirstByTitle rest t

/-! ### Task 2e: `deleteBookByTitle` (src/queries.js lines 85-88) -/

/-- `books.deleteOne({ title })`: removes the first document whose `title`
matches and reports the deletion count (0 or 1). -/
def deleteOneByTitle : List Book → String → List Book × Nat
  | [], _ => ([], 0)
  | b :: rest, t =>
    if b.title = t then (rest, 1)
    else
      let r := deleteOneByTitle rest t
      (b :: r.1, r.2)

/-- `deleteBookByTitle`: performs the `deleteOne` and prints `"Success"`
when `result.deletedCount` is truthy (nonzero), `"No match found"` otherwise. -/
def deleteBookByTitle (books : List Book) (title : String) : List Book × String :=
  let result := deleteOneByTitle books title
  (result.1, if result.2 ≠ 0 then "Success" else "No match found")

/-! ### Aggregation: the `$group` stage

A `$group` stage with `_id: key(doc)` produces one output document per
distinct key of the input.  `groupKeys f books` lists the distinct keys in
order of first appearance, and `countKey f k books` is the `$sum: 1`
accumulator for the group of key `k`. -/

/-- Distinct values of `f` over the collection, first occurrence first. -/
def groupKeys {κ : Type} [DecidableEq κ] (f : Book → κ) : List Book → List κ
  | [] => []
  | b :: rest => f b :: (groupKeys f rest).filter (fun k => decide (k ≠ f b))

/-- Number of documents whose key under `f` is `k` (the `$sum: 1` count). -/
def countKey {κ : Type} [DecidableEq κ] (f : Book → κ) (k : κ) (books : List Book) : Nat :=
  (books.filter (fun b => decide (f b = k))).length

/-! ### Task 4a: `averagePriceByGenre` (src/queries.js lines 141-154) -/

/-- Pipeline `$group: { _id: "$genre", averagePrice: { $avg: "$price" } }`
followed by `$sort: { averagePrice: -1 }`: one `(genre, mean price)` pair
per distinct genre, sorted descending by mean price. -/
def averagePriceByGenre (books : List Book) : List (String × ℚ) :=
  let groups := (groupKeys (fun b => b.genre) books).map
    (fun g =>
      let inGenre := books.filter (fun b => decide (b.genre = g))
      (g, (inGenre.map (fun b => b.price)).sum / (inGenre.length : ℚ)))
  groups.mergeSort (fun x y => decide (y.2 ≤ x.2))

/-! ### Task 4b: `authorWithMostBooks` (src/queries.js lines 156-170) -/

/-- Pipeline `$group: { _id: "$author", totalBooks: { $sum: 1 } }`,
`$sort: { totalBooks: -1 }`, `$limit: 1`: the per-author document counts
sorted descending by count, truncated to the single top result. -/
def authorWithMostBooks (books : List Book) : List (String × Nat) :=
  let groups := (groupKeys (fun b => b.author) books).map
    (fun a => (a, countKey (fun b => b.author) a books))
  (groups.mergeSort (fun x y => decide (y.2 ≤ x.2))).take 1

/-! ### Task 4c: `booksByDecade` (src/queries.js lines 172-190) -/

/-- The group key `$subtract: ["$published_year", { $mod: ["$published_year", 10] }]`. -/
def decadeOf (y : Nat) : Nat := y - y % 10

/-- Pipeline grouping by decade with `totalBooks: { $sum: 1 }`, followed by
`$sort: { _id: 1 }`: `(decade, count)` pairs sorted ascending by decade key. -/
def booksByDecade (books : List Book) : List (Nat × Nat) :=
  let groups := (groupKeys (fun b => decadeOf b.published_year) books).map
    (fun d => (d, countKey (fun b => decadeOf b.published_year) d books))
  groups.mergeSort (fun x y => decide (x.1 ≤ y.1))

/-! ### `run` (src/queries.js lines 6-48)

`run` connects, executes the fixed sequence of query calls inside a
`try`, logs any error in the `catch`, and in the `finally` block closes
the client and prints the closing message.  We model the observable
control flow as a trace of events, parameterised by an oracle saying
whether the connection attempt (step 0) and each query call (steps 1..15)
succeeds; a failing step throws, skipping the remaining query calls. -/

/-- Observable events of `run`: a successful connect, a query call
(attempted, possibly throwing), the `catch` error log, the `client.close()`
call and the closing console message. -/
inductive Event where
  | connect
  | query (name : String)
  | errorLog
  | close
  | closeMsg
deriving DecidableEq

/-- The fixed sequence of query calls in the `try` block, in source order. -/
def queryNames : List String :=
  ["findAllBooks", "findAfterYear", "findByAuthor", "updateBookPrice",
   "deleteBookByTitle", "findInStockAfter2010", "projectTitleAuthorPrice",
   "sortByPrice", "paginateBooks", "averagePriceByGenre",
   "authorWithMostBooks", "booksByDecade", "createTitleIndex",
   "createCompoundIndex", "analyzeIndexPerformance"]

/-- Sequential execution of the awaited query calls starting at oracle
step `i`: each successful call emits its event and continues; the first
failing call emits its event and aborts (throws).  Returns the events and
whether every call succeeded. -/
def runQueries (oracle : Nat → Bool) : List String → Nat → List Event × Bool
  | [], _ => ([], true)
  | q :: rest, i =>
    if oracle i then
      let r := runQueries oracle rest (i + 1)
      (Event.query q :: r.1, r.2)
    else
      ([Event.query q], false)

/-- The full event trace of `run()`: the `try` body (connect, then the
query calls, cut short by the first failure), the `catch` error log when
anything threw, then the `finally` block (close and closing message). -/
def runTrace (oracle : Nat → Bool) : List Event :=
  let body :=
    if oracle 0 then
      let r := runQueries oracle queryNames 1
      (Event.connect :: r.1, r.2)
    else
      (([] : List Event), false)
  body.1 ++ (if body.2 then [] else [Event.errorLog]) ++ [Event.close, Event.closeMsg]

/-- Checks that no query event occurs before the first connect event. -/
def noQueryBeforeConnect : List Event → Bool
  | [] => true
  | Event.connect :: _ => true
  | Event.query _ :: _ => false
  | _ :: rest => noQueryBeforeConnect rest

/-! ### Task 5c: `analyzeIndexPerformance` (src/queries.js lines 207-228) -/

/-- The metrics read off an `explain("executionStats")` result:
`executionStats.totalDocsExamined`, `executionStats.executionTimeMillis`
and `queryPlanner.winningPlan.stage`. -/
structure ExplainStats where
  totalDocsExamined : Nat
  executionTimeMillis : Nat
  winningPlanStage : String

/-- An index specification: the list of `(field, direction)` keys. -/
abbrev IndexSpec := List (String × Int)

/-- Database actions `analyzeIndexPerformance` issues, in order. -/
inductive DbAction where
  | dropIndexes
  | explainFind (titleValue : String)
  | createIndex (keys : IndexSpec)
deriving DecidableEq

/-- Console lines `analyzeIndexPerformance` prints, in order. -/
inductive OutputLine where
  | beforeDocsExamined (n : Nat)
  | beforeExecutionTime (n : Nat)
  | afterDocsExamined (n : Nat)
  | afterExecutionTime (n : Nat)
  | winningPlan (stage : String)
deriving DecidableEq

/-- `books.dropIndexes()`: removes every index on the collection. -/
def dropIndexesOp (_ : List IndexSpec) : List IndexSpec := []

/-- `books.createIndex(keys)`: adds an index to the collection. -/
def createIndexOp (keys : IndexSpec) (idx : List IndexSpec) : List IndexSpec :=
  idx ++ [keys]

/-- `analyzeIndexPerformance`, parameterised by the backend explain
function (index set and queried title value to execution stats) and the
initial index set: drops all indexes, explains `find({ title: "1984" })`,
recreates `{ title: 1 }`, re-explains the same query, and prints the
before metrics, the after metrics and the winning plan stage.  Returns the
issued actions, the printed lines and the final index set. -/
def analyzeIndexPerformance (explainStats : List IndexSpec → String → ExplainStats)
    (idx0 : List IndexSpec) : List DbAction × List OutputLine × List IndexSpec :=
  let query := "1984"
  let idx1 := dropIndexesOp idx0
  let before := explainStats idx1 query
  let idx2 := createIndexOp [("title", 1)] idx1
  let after := explainStats idx2 query
  ([DbAction.dropIndexes, DbAction.explainFind query,
    DbAction.createIndex [("title", 1)], DbAction.explainFind query],
   [OutputLine.beforeDocsExamined before.totalDocsExamined,
    OutputLine.beforeExecutionTime before.executionTimeMillis,
    OutputLine.afterDocsExamined after.totalDocsExamined,
    OutputLine.afterExecutionTime after.executionTimeMillis,
    OutputLine.winningPlan after.winningPlanStage],
   idx2)

/-! ## Sample documents used by witnesses -/

/-- Sample Book document. -/
def demo1 : Book := ⟨"Dune", "Frank Herbert", "Science Fiction", 1965, 12, true⟩

/-- Sample Book document. -/
def demo2 : Book := ⟨"Emma", "Jane Austen", "Romance", 1815, 9, true⟩

/-- Sample Book document. -/
def demo3 : Book := ⟨"Ivanhoe", "Walter Scott", "Historical", 1819, 15, false⟩

/-- The first Book of the end-to-end scenario of the spec. -/
def bookA : Book := ⟨"Book A", "Author A", "Fiction", 2020, 10, true⟩

/-- The second Book of the end-to-end scenario of the spec. -/
def bookB : Book := ⟨"Book B", "Author B", "Fiction", 2021, 20, true⟩

/-! ## Helper lemmas -/

/-- The price comparison of a Mongo sort direction is transitive. -/
lemma priceLe_trans (d : Int) (a b c : Book) (hab : priceLe d a b) (hbc : priceLe d b c) :
    priceLe d a c := by
  by_cases hd : d = 1 <;> simp [priceLe, hd] at hab hbc ⊢
  · exact le_trans hab hbc
  · exact le_trans hbc hab

/-- The price comparison of a Mongo sort direction is total. -/
lemma priceLe_total (d : Int) (a b : Book) : priceLe d a b || priceLe d b a := by
  by_cases hd : d = 1 <;> simp [priceLe, hd] <;> exact le_total _ _

/-- A merge sort descending on the second component yields a list that is
pairwise non-increasing on the second component. -/
lemma pairwise_mergeSort_snd_desc {α β : Type} [LinearOrder β] (l : List (α × β)) :
    (l.mergeSort (fun x y => decide (y.2 ≤ x.2))).Pairwise (fun x y => y.2 ≤ x.2) := by
  have h := @List.sorted_mergeSort (α × β) (fun x y => decide (y.2 ≤ x.2))
    (fun a b c hab hbc => by simp at hab hbc ⊢; exact le_trans hbc hab)
    (fun a b => by simpa using le_total b.2 a.2) l
  exact h.imp (fun hab => by simpa using hab)

/-- A merge sort ascending on the first component yields a list that is
pairwise non-decreasing on the first component. -/
lemma pairwise_mergeSort_fst_asc {α β : Type} [LinearOrder α] (l : List (α × β)) :
    (l.mergeSort (fun x y => decide (x.1 ≤ y.1))).Pairwise (fun x y => x.1 ≤ y.1) := by
  have h := @List.sorted_mergeSort (α × β) (fun x y => decide (x.1 ≤ y.1))
    (fun a b c hab hbc => by simp at hab hbc ⊢; exact le_trans hab hbc)
    (fun a b => by simpa using le_total a.1 b.1) l
  exact h.imp (fun hab => by simpa using hab)

/-- Overwriting the price of a document with its current price is the
identity. -/
lemma set_price_self (b : Book) : ({ b with price := b.price } : Book) = b := rfl

/-- `updateOne` on a filter that matches no document leaves the collection
unchanged and reports zero matched and zero modified documents. -/
lemma updateOneSetPrice_no_match (books : List Book) (t : String) (p : ℚ)
    (h : ∀ b ∈ books, b.title ≠ t) :
    updateOneSetPrice books t p = ⟨books, 0, 0⟩ := by
  induction books with
  | nil => rfl
  | cons b rest ih =>
    have hb : ¬b.title = t := h b (by simp)
    have hr := ih (fun x hx => h x (by simp [hx]))
    simp [updateOneSetPrice, hb, hr]

/-- `deleteOne` removes the first matching document and reports the count
of any match. -/
lemma deleteOneByTitle_eq (books : List Book) (t : String) :
    deleteOneByTitle books t =
      (books.eraseP (fun b => decide (b.title = t)),
       if books.any (fun b => decide (b.title = t)) then 1 else 0) := by
  induction books with
  | nil => rfl
  | cons b rest ih =>
    by_cases hb : b.title = t
    · simp [deleteOneByTitle, hb, List.eraseP_cons]
    · simp [deleteOneByTitle, hb, List.eraseP_cons, ih]

/-- A key occurs among the group keys exactly when some document bears it. -/
lemma mem_groupKeys {κ : Type} [DecidableEq κ] (f : Book → κ) (books : List Book) (k : κ) :
    k ∈ groupKeys f books ↔ ∃ b ∈ books, f b = k := by
  induction books with
  | nil => simp [groupKeys]
  | cons b rest ih =>
    by_cases hk : k = f b
    · simp [groupKeys, hk]
    · simp [groupKeys, List.mem_filter, hk, ih, Ne.symm hk]

/-- A key matched by no document has group count zero. -/
lemma countKey_eq_zero {κ : Type} [DecidableEq κ] (f : Book → κ) (k : κ)
    (books : List Book) (h : ∀ b ∈ books, f b ≠ k) :
    countKey f k books = 0 := by
  simp only [countKey, List.length_eq_zero, List.filter_eq_nil_iff]
  intro a ha
  simpa using h a ha

/-! ## Claims -/

/-- Claim C1: for every collection state and every order flag other than
the literal string "asc", `sortByPrice order` returns all documents of the
collection (a permutation) ordered non-increasing by price; for the flag
"asc" it returns them ordered non-decreasing by price. -/
theorem sortByPrice_spec (books : List Book) (order : String) :
    (sortByPrice books order).Perm books ∧
    (order = "asc" →
      (sortByPrice books order).Pairwise (fun a b => a.price ≤ b.price)) ∧
    (order ≠ "asc" →
      (sortByPrice books order).Pairwise (fun a b => b.price ≤ a.price)) := by
  refine ⟨List.mergeSort_perm _ _, ?_, ?_⟩
  · intro h
    have hd : sortOrderOf order = 1 := by simp [sortOrderOf, h]
    have hs := @List.sorted_mergeSort Book (priceLe (sortOrderOf order))
      (priceLe_trans _) (priceLe_total _) books
    exact hs.imp (fun hab => by simpa [priceLe, hd] using hab)
  · intro h
    have hd : sortOrderOf order = -1 := by simp [sortOrderOf, h]
    have hs := @List.sorted_mergeSort Book (priceLe (sortOrderOf order))
      (priceLe_trans _) (priceLe_total _) books
    exact hs.imp (fun hab => by simpa [priceLe, hd] using hab)

/-- Witness for C1 at a concrete collection and both flag kinds. -/
theorem sortByPrice_spec_witness :
    (sortByPrice [demo1, demo2] "asc").Pairwise (fun a b => a.price ≤ b.price) ∧
    (sortByPrice [demo1, demo2] "desc").Pairwise (fun a b => b.price ≤ a.price) :=
  ⟨(sortByPrice_spec [demo1, demo2] "asc").2.1 rfl,
   (sortByPrice_spec [demo1, demo2] "desc").2.2 (by decide)⟩

/-- Claim C2: for every collection state, every page ≥ 1 and every page
size, `paginateBooks page pageSize` returns at most `pageSize` documents,
and the documents returned start at offset `(page - 1) * pageSize` into
the full result set. -/
theorem paginateBooks_spec (books : List Book) (page pageSize : Nat) (h : 1 ≤ page) :
    (paginateBooks books page pageSize).length ≤ pageSize ∧
    ∀ i : Nat, (paginateBooks books page pageSize)[i]? =
      if i < pageSize then books[(page - 1) * pageSize + i]? else none := by
  constructor
  · simpa [paginateBooks] using List.length_take_le pageSize (books.drop ((page - 1) * pageSize))
  · intro i
    simp [paginateBooks, List.getElem?_take, List.getElem?_drop]

/-- Witness for C2: page 2 of size 2 over a three-document collection
starts at offset 2. -/
theorem paginateBooks_spec_witness :
    1 ≤ 2 ∧ (paginateBooks [demo1, demo2, demo3] 2 2).length ≤ 2 ∧
    (paginateBooks [demo1, demo2, demo3] 2 2)[0]? = [demo1, demo2, demo3][2]? := by
  have h := paginateBooks_spec [demo1, demo2, demo3] 2 2 (by decide)
  refine ⟨by decide, h.1, ?_⟩
  simpa using h.2 0

/-- Claim C3: for every collection state in which no document has the
given title, `updateBookPrice` reports no match and leaves the collection
unchanged (in particular it creates no new document). -/
theorem updateBookPrice_no_match (books : List Book) (t : String) (p : ℚ)
    (h : ∀ b ∈ books, b.title ≠ t) :
    updateBookPrice books t p = (books, "No match found") := by
  simp [updateBookPrice, updateOneSetPrice_no_match books t p h]

/-- Witness for C3 at a concrete collection and an absent title. -/
theorem updateBookPrice_no_match_witness :
    updateBookPrice [demo1, demo2] "Moby Dick" 7.99 = ([demo1, demo2], "No match found") :=
  updateBookPrice_no_match [demo1, demo2] "Moby Dick" 7.99 (by decide)

/-- Claim C4: `deleteBookByTitle` on an absent title reports no match and
leaves the collection (hence its size) unchanged; when some document
matches, it removes exactly the first matching document (shrinking the
collection by one) and reports success. -/
theorem deleteBookByTitle_spec (books : List Book) (t : String) :
    ((∀ b ∈ books, b.title ≠ t) →
      deleteBookByTitle books t = (books, "No match found")) ∧
    ((∃ b ∈ books, b.title = t) →
      (deleteBookByTitle books t).1 = books.eraseP (fun b => decide (b.title = t)) ∧
      (deleteBookByTitle books t).1.length + 1 = books.length ∧
      (deleteBookByTitle books t).2 = "Success") := by
  constructor
  · intro h
    have hnone : books.any (fun b => decide (b.title = t)) = false := by
      simp only [List.any_eq_false]
      intro b hb
      simpa using h b hb
    have herase : books.eraseP (fun b => decide (b.title = t)) = books :=
      List.eraseP_of_forall_not (fun b hb => by simpa using h b hb)
    simp [deleteBookByTitle, deleteOneByTitle_eq, hnone, herase]
  · rintro ⟨b, hb, hbt⟩
    have hany : books.any (fun x => decide (x.title = t)) = true :=
      List.any_eq_true.mpr ⟨b, hb, by simpa using hbt⟩
    have hlen := List.length_eraseP_add_one (p := fun x => decide (x.title = t))
      hb (by simpa using hbt)
    refine ⟨?_, ?_, ?_⟩ <;> simp [deleteBookByTitle, deleteOneByTitle_eq, hany, hlen]

/-- Witness for C4: a concrete absent title and a concrete present title. -/
theorem deleteBookByTitle_spec_witness :
    deleteBookByTitle [demo1, demo2] "Moby Dick" = ([demo1, demo2], "No match found") ∧
    (deleteBookByTitle [demo1, demo2] "Dune").1 =
      [demo1, demo2].eraseP (fun b => decide (b.title = "Dune")) ∧
    (deleteBookByTitle [demo1, demo2] "Dune").1.length + 1 = 2 ∧
    (deleteBookByTitle [demo1, demo2] "Dune").2 = "Success" := by
  refine ⟨(deleteBookByTitle_spec [demo1, demo2] "Moby Dick").1 (by decide), ?_⟩
  exact (deleteBookByTitle_spec [demo1, demo2] "Dune").2 ⟨demo1, by simp, by decide⟩

/-- Claim C10: when a document with the given title exists but its price
already equals the new price, `updateBookPrice` reports "No match found"
rather than success (the message is derived from the modified count, which
is 0 when no stored value changes), and the collection is left unchanged. -/
theorem updateBookPrice_unchanged_price (books : List Book) (t : String) (p : ℚ)
    (b : Book) (h1 : findFirstByTitle books t = some b) (h2 : b.price = p) :
    updateBookPrice books t p = (books, "No match found") := by
  suffices hs : updateOneSetPrice books t p = ⟨books, 1, 0⟩ by
    simp [updateBookPrice, hs]
  subst h2
  induction books with
  | nil => simp [findFirstByTitle] at h1
  | cons a rest ih =>
    by_cases ha : a.title = t
    · simp only [findFirstByTitle, ha, if_pos] at h1
      cases h1
      simp [updateOneSetPrice, ha, set_price_self]
      rw [← ha]
    · simp only [findFirstByTitle, ha, if_neg, ite_false] at h1
      simp [updateOneSetPrice, ha, ih h1]

/-- Witness for C10: updating "Dune" to its already current price reports
no match and leaves the collection unchanged. -/
theorem updateBookPrice_unchanged_price_witness :
    updateBookPrice [demo1, demo2] "Dune" 12 = ([demo1, demo2], "No match found") :=
  updateBookPrice_unchanged_price [demo1, demo2] "Dune" 12 demo1 (by decide) (by decide)

/-- Sample Book document published in 1955. -/
def d55 : Book := ⟨"Y1955", "W", "G", 1955, 5, true⟩

/-- Sample Book document published in 1959. -/
def d59 : Book := ⟨"Y1959", "X", "G", 1959, 6, true⟩

/-- Sample Book document published in 1960. -/
def d60 : Book := ⟨"Y1960", "Z", "G", 1960, 7, true⟩

/-- In a merge sort descending on the second component, the head bounds
every element of the input list. -/
lemma mergeSort_desc_head_max {α β : Type} [LinearOrder β] (l : List (α × β))
    (x : α × β) (hx : x ∈ l) (s0 : α × β) (srest : List (α × β))
    (hs : l.mergeSort (fun a b => decide (b.2 ≤ a.2)) = s0 :: srest) :
    x.2 ≤ s0.2 := by
  have hmem : x ∈ l.mergeSort (fun a b => decide (b.2 ≤ a.2)) :=
    List.mem_mergeSort.mpr hx
  rw [hs] at hmem
  rcases List.mem_cons.mp hmem with he | ht
  · exact le_of_eq (congrArg Prod.snd he)
  · have hpair := pairwise_mergeSort_snd_desc l
    rw [hs] at hpair
    exact (List.pairwise_cons.mp hpair).1 x ht

/-- Claim C5: `booksByDecade` assigns every document the group key
`published_year - published_year % 10`; each reported group carries the
count of the documents with that key, every document's decade appears
among the groups, the groups are sorted ascending by decade key, and in
particular 1955 and 1959 fall in the 1950 group while 1960 keys the
distinct group 1960. -/
theorem booksByDecade_spec (books : List Book) :
    (booksByDecade books).Pairwise (fun x y => x.1 ≤ y.1) ∧
    (∀ p ∈ booksByDecade books,
      p.2 = countKey (fun b => decadeOf b.published_year) p.1 books ∧
      ∃ b ∈ books, decadeOf b.published_year = p.1) ∧
    (∀ b ∈ books,
      (decadeOf b.published_year,
        countKey (fun x => decadeOf x.published_year) (decadeOf b.published_year) books)
        ∈ booksByDecade books) ∧
    decadeOf 1955 = 1950 ∧ decadeOf 1959 = 1950 ∧ decadeOf 1960 = 1960 := by
  refine ⟨?_, ?_, ?_, by decide, by decide, by decide⟩
  · simp only [booksByDecade]
    exact pairwise_mergeSort_fst_asc _
  · intro p hp
    simp only [booksByDecade, List.mem_mergeSort, List.mem_map] at hp
    obtain ⟨d, hd, hdp⟩ := hp
    obtain ⟨b, hb, hbd⟩ := (mem_groupKeys _ books d).mp hd
    subst hdp
    exact ⟨rfl, b, hb, hbd⟩
  · intro b hb
    have hd : decadeOf b.published_year ∈ groupKeys (fun x => decadeOf x.published_year) books :=
      (mem_groupKeys _ books _).mpr ⟨b, hb, rfl⟩
    simp only [booksByDecade, List.mem_mergeSort, List.mem_map]
    exact ⟨decadeOf b.published_year, hd, rfl⟩

/-- Witness for C5: documents of 1955 and 1959 share the 1950 group of
count 2, and the 1960 document keys the distinct group 1960 of count 1. -/
theorem booksByDecade_spec_witness :
    ((1950 : Nat), (2 : Nat)) ∈ booksByDecade [d55, d59, d60] ∧
    ((1960 : Nat), (1 : Nat)) ∈ booksByDecade [d55, d59, d60] := by
  have h := booksByDecade_spec [d55, d59, d60]
  have h55 := h.2.2.1 d55 (by simp)
  have h60 := h.2.2.1 d60 (by simp)
  constructor
  · have he : (decadeOf d55.published_year,
        countKey (fun x => decadeOf x.published_year) (decadeOf d55.published_year)
          [d55, d59, d60]) = ((1950 : Nat), (2 : Nat)) := by decide
    exact he ▸ h55
  · have he : (decadeOf d60.published_year,
        countKey (fun x => decadeOf x.published_year) (decadeOf d60.published_year)
          [d55, d59, d60]) = ((1960 : Nat), (1 : Nat)) := by decide
    exact he ▸ h60

/-- Claim C6: on a nonempty collection, `authorWithMostBooks` returns
exactly one result, an author present in the collection together with that
author's document count, and no author (tied or not) has a higher count;
the tie-break is deterministic since the pipeline is a pure function of
the collection state. -/
theorem authorWithMostBooks_spec (books : List Book) (h : books ≠ []) :
    ∃ a n, authorWithMostBooks books = [(a, n)] ∧
      (∃ b ∈ books, b.author = a) ∧
      n = countKey (fun b => b.author) a books ∧
      ∀ x : String, countKey (fun b => b.author) x books ≤ n := by
  have hkeys : groupKeys (fun b => b.author) books ≠ [] := by
    cases books with
    | nil => exact absurd rfl h
    | cons b rest => simp [groupKeys]
  have hgne : (groupKeys (fun b => b.author) books).map
      (fun a => (a, countKey (fun b => b.author) a books)) ≠ [] := by
    intro hnil
    exact hkeys (List.map_eq_nil.mp hnil)
  obtain ⟨s0, srest, hsor⟩ : ∃ s0 srest,
      ((groupKeys (fun b => b.author) books).map
        (fun a => (a, countKey (fun b => b.author) a books))).mergeSort
        (fun x y => decide (y.2 ≤ x.2)) = s0 :: srest := by
    cases hm : ((groupKeys (fun b => b.author) books).map
        (fun a => (a, countKey (fun b => b.author) a books))).mergeSort
        (fun x y => decide (y.2 ≤ x.2)) with
    | nil =>
      exfalso
      have hperm := List.mergeSort_perm
        ((groupKeys (fun b => b.author) books).map
          (fun a => (a, countKey (fun b => b.author) a books)))
        (fun x y => decide (y.2 ≤ x.2))
      rw [hm] at hperm
      exact hgne hperm.symm.eq_nil
    | cons a l => exact ⟨a, l, rfl⟩
  have hmem0 : s0 ∈ (groupKeys (fun b => b.author) books).map
      (fun a => (a, countKey (fun b => b.author) a books)) := by
    apply List.mem_mergeSort.mp
    rw [hsor]
    exact List.mem_cons_self _ _
  obtain ⟨a, ha, hap⟩ := List.mem_map.mp hmem0
  obtain ⟨b, hb, hba⟩ := (mem_groupKeys _ books a).mp ha
  refine ⟨a, countKey (fun b => b.author) a books, ?_, ⟨b, hb, hba⟩, rfl, ?_⟩
  · have h1 : authorWithMostBooks books = (((groupKeys (fun b => b.author) books).map
        (fun a => (a, countKey (fun b => b.author) a books))).mergeSort
        (fun x y => decide (y.2 ≤ x.2))).take 1 := rfl
    rw [h1, hsor, ← hap]
    rfl
  · intro x
    by_cases hx : x ∈ groupKeys (fun b => b.author) books
    · have hstep := mergeSort_desc_head_max
        ((groupKeys (fun b => b.author) books).map
          (fun a => (a, countKey (fun b => b.author) a books)))
        (x, countKey (fun b => b.author) x books)
        (List.mem_map_of_mem _ hx) s0 srest hsor
      exact le_of_le_of_eq hstep (congrArg Prod.snd hap).symm
    · have hz : countKey (fun b => b.author) x books = 0 :=
      countKey_eq_zero _ x books
        (fun c hc hcx => hx ((mem_groupKeys _ books x).mpr ⟨c, hc, hcx⟩))
      simp [hz]

/-- Witness for C6: two authors tied at one book each still yield exactly
one result. -/
theorem authorWithMostBooks_spec_witness :
    ∃ a n, authorWithMostBooks [demo1, demo2] = [(a, n)] ∧
      (∃ b ∈ [demo1, demo2], b.author = a) ∧
      n = countKey (fun b => b.author) a [demo1, demo2] ∧
      ∀ x : String, countKey (fun b => b.author) x [demo1, demo2] ≤ n :=
  authorWithMostBooks_spec [demo1, demo2] (List.cons_ne_nil _ _)

/-- Claim C7: `averagePriceByGenre` reports, for each genre present, the
mean price of the documents of that genre, sorted descending by mean
price; in particular on the two-document "Fiction" collection of the
spec's scenario it returns the single group ("Fiction", 15). -/
theorem averagePriceByGenre_spec (books : List Book) :
    (averagePriceByGenre books).Pairwise (fun x y => y.2 ≤ x.2) ∧
    (∀ p ∈ averagePriceByGenre books,
      (∃ b ∈ books, b.genre = p.1) ∧
      p.2 = ((books.filter (fun b => decide (b.genre = p.1))).map (fun b => b.price)).sum /
        ((books.filter (fun b => decide (b.genre = p.1))).length : ℚ)) ∧
    averagePriceByGenre [bookA, bookB] = [("Fiction", 15)] := by
  refine ⟨?_, ?_, ?_⟩
  · simp only [averagePriceByGenre]
    exact pairwise_mergeSort_snd_desc _
  · intro p hp
    simp only [averagePriceByGenre, List.mem_mergeSort, List.mem_map] at hp
    obtain ⟨g, hg, hgp⟩ := hp
    obtain ⟨b, hb, hbg⟩ := (mem_groupKeys _ books g).mp hg
    subst hgp
    exact ⟨⟨b, hb, hbg⟩, rfl⟩
  · norm_num [averagePriceByGenre, groupKeys, List.mergeSort, List.merge, bookA,
      bookB, List.filter]

/-- Witness for C7: the group ("Fiction", 15) of the scenario satisfies
the per-group mean equation. -/
theorem averagePriceByGenre_spec_witness :
    (∃ b ∈ [bookA, bookB], b.genre = "Fiction") ∧
    (15 : ℚ) = (([bookA, bookB].filter (fun b => decide (b.genre = "Fiction"))).map
        (fun b => b.price)).sum /
      ((([bookA, bookB].filter (fun b => decide (b.genre = "Fiction"))).length : ℚ)) := by
  have hc := (averagePriceByGenre_spec [bookA, bookB]).2.2
  have h := (averagePriceByGenre_spec [bookA, bookB]).2.1 ("Fiction", 15)
    (by rw [hc]; simp)
  exact h

/-- Every event the query sequence emits is a query event. -/
lemma runQueries_events (oracle : Nat → Bool) :
    ∀ (qs : List String) (i : Nat), ∀ e ∈ (runQueries oracle qs i).1, ∃ q, e = Event.query q := by
  intro qs
  induction qs with
  | nil =>
    intro i e he
    simp [runQueries] at he
  | cons q rest ih =>
    intro i e he
    by_cases h : oracle i
    · simp only [runQueries, h, if_pos, List.mem_cons] at he
      rcases he with he | he
      · exact ⟨q, he⟩
      · exact ih (i + 1) e he
    · simp [runQueries, h] at he
      exact ⟨q, he⟩

/-- Claim C8: on every execution path of `run` — every operation
succeeding, any operation failing, or the connection attempt itself
failing — the close is attempted exactly once, the trace ends with the
close followed by the closing message, the connection is acquired at most
once (never reopened), and no query call ever precedes the connect. -/
theorem run_spec (oracle : Nat → Bool) :
    (runTrace oracle).count Event.close = 1 ∧
    (runTrace oracle).count Event.connect ≤ 1 ∧
    (∃ s, runTrace oracle = s ++ [Event.close, Event.closeMsg] ∧
      Event.close ∉ s ∧ Event.closeMsg ∉ s) ∧
    noQueryBeforeConnect (runTrace oracle) = true := by
  by_cases h0 : oracle 0
  · have hq := runQueries_events oracle queryNames 1
    have hnc : Event.close ∉ (runQueries oracle queryNames 1).1 := by
      intro hc
      obtain ⟨q, hq2⟩ := hq _ hc
      cases hq2
    have hnm : Event.closeMsg ∉ (runQueries oracle queryNames 1).1 := by
      intro hc
      obtain ⟨q, hq2⟩ := hq _ hc
      cases hq2
    have hncon : Event.connect ∉ (runQueries oracle queryNames 1).1 := by
      intro hc
      obtain ⟨q, hq2⟩ := hq _ hc
      cases hq2
    have ht : runTrace oracle =
        (Event.connect :: (runQueries oracle queryNames 1).1) ++
          (if (runQueries oracle queryNames 1).2 then [] else [Event.errorLog]) ++
          [Event.close, Event.closeMsg] := by
      simp [runTrace, h0]
    refine ⟨?_, ?_, ?_, ?_⟩
    · rw [ht]
      by_cases hb : (runQueries oracle queryNames 1).2 <;>
        simp [hb, List.count_append, List.count_cons, List.count_eq_zero.mpr hnc]
    · rw [ht]
      by_cases hb : (runQueries oracle queryNames 1).2 <;>
        simp [hb, List.count_append, List.count_cons, List.count_eq_zero.mpr hncon]
    · refine ⟨(Event.connect :: (runQueries oracle queryNames 1).1) ++
        (if (runQueries oracle queryNames 1).2 then [] else [Event.errorLog]), ?_, ?_, ?_⟩
      · rw [ht, List.append_assoc]
      · by_cases hb : (runQueries oracle queryNames 1).2 <;> simp [hb, hnc]
      · by_cases hb : (runQueries oracle queryNames 1).2 <;> simp [hb, hnm]
    · rw [ht]
      rfl
  · have ht : runTrace oracle = [Event.errorLog, Event.close, Event.closeMsg] := by
      simp [runTrace, h0]
    rw [ht]
    exact ⟨by decide, by decide, ⟨[Event.errorLog], rfl, by decide, by decide⟩, by decide⟩

/-- Claim C9: `analyzeIndexPerformance` issues exactly, in order, a
drop of all indexes, an explained query on title "1984", the creation of
the single-field ascending title index, and the same explained query
again; it prints the before metrics (taken against the empty index set,
whatever indexes existed initially), the after metrics and the winning
plan stage (taken against the recreated title index), and leaves the
collection with exactly the title index. -/
theorem analyzeIndexPerformance_spec
    (explainStats : List IndexSpec → String → ExplainStats) (idx0 : List IndexSpec) :
    analyzeIndexPerformance explainStats idx0 =
      ([DbAction.dropIndexes, DbAction.explainFind "1984",
        DbAction.createIndex [("title", 1)], DbAction.explainFind "1984"],
       [OutputLine.beforeDocsExamined (explainStats [] "1984").totalDocsExamined,
        OutputLine.beforeExecutionTime (explainStats [] "1984").executionTimeMillis,
        OutputLine.afterDocsExamined (explainStats [[("title", 1)]] "1984").totalDocsExamined,
        OutputLine.afterExecutionTime (explainStats [[("title", 1)]] "1984").executionTimeMillis,
        OutputLine.winningPlan (explainStats [[("title", 1)]] "1984").winningPlanStage],
       [[("title", 1)]]) := rfl

end Bookstore
